import Mathlib

/-!
Verification of the in-memory library state model of rustLMS (src/main.rs).

The GUI layer (GTK widgets, callbacks) and the CSV file reader are external
collaborators, out of scope per the specification; the state model consists of
the types LiItem, LiItemInstance, Member, Library and the methods
LiItem::create_instance, LiItemInstance::renew, Library::initialize_lib,
Library::book_issue and Library::book_return.

Modelling conventions:
- Rust u32 values are Nat; arithmetic that can overflow or truncate in the
  source carries an explicit % 4294967296: the available-copies increment in
  book_return, and the auto-created member id, where the source truncates
  members.len() to u32 before adding 1 (release-mode wrap semantics).
  The guarded decrement in create_instance is modelled by an Option result:
  none is the debug-mode underflow panic of avail_copies -= 1.
- HashMap is an association list with at most one entry per key in every
  state the program constructs (mapInsert replaces, mapRemove deletes).
- chrono DateTime of Utc is a count of months since the epoch: the program
  only ever constructs DateTime::default() and adds chrono Months to it, so
  calendar-day clamping never occurs and addition of months is exact.
- str::parse::<u32> is parseU32 (digits with optional leading plus sign,
  value below 2^32); str::to_lowercase is toLowercase (the format tags the
  program compares against are ASCII).
- Stateful methods return the updated Library paired with the Result value;
  book_issue returns an Option of that pair, none modelling a panic.
-/

namespace RustLMS

/-- Model of str::to_lowercase, applied charwise (the compared format tags are
ASCII, where to_lowercase agrees with charwise lowercasing). -/
def toLowercase (s : String) : String := String.mk (s.data.map Char.toLower)

/-- Digit-accumulator loop of integer parsing. -/
def parseU32Core : List Char → Nat → Option Nat
  | [], acc => some acc
  | c :: cs, acc =>
    if 48 ≤ c.toNat ∧ c.toNat ≤ 57 then parseU32Core cs (acc * 10 + (c.toNat - 48))
    else none

/-- Model of str::parse::<u32>: optional leading plus sign, then one or more
decimal digits, value below 2^32. -/
def parseU32 (s : String) : Option Nat :=
  let cs := match s.data with
    | '+' :: rest => rest
    | cs => cs
  match cs with
  | [] => none
  | _ :: _ =>
    match parseU32Core cs 0 with
    | some n => if n < 4294967296 then some n else none
    | none => none

/-- Months-since-epoch model of chrono DateTime of Utc. -/
abbrev DateTime := Nat

/-- Model of DateTime::default(), the Unix epoch. This is the timestamp the
program stamps on every new checkout instance before renewing it, i.e. the
issuance-time base from which the due date is advanced. -/
def DateTime.default : DateTime := 0

/-- Model of adding chrono Months::new(m) to a date. -/
def DateTime.addMonths (d : DateTime) (m : Nat) : DateTime := d + m

/-! Section: Association-list model of HashMap -/

/-- Model of HashMap::get: the value at the first entry for the key. -/
def mapGet (k : Nat) : List (Nat × α) → Option α
  | [] => none
  | (k', v') :: rest => if k' = k then some v' else mapGet k rest

/-- Model of HashMap::insert: replace the entry for the key, or append one. -/
def mapInsert (k : Nat) (v : α) : List (Nat × α) → List (Nat × α)
  | [] => [(k, v)]
  | (k', v') :: rest => if k' = k then (k, v) :: rest else (k', v') :: mapInsert k v rest

/-- Model of HashMap::remove: delete the entry for the key. -/
def mapRemove (k : Nat) : List (Nat × α) → List (Nat × α)
  | [] => []
  | (k', v') :: rest => if k' = k then rest else (k', v') :: mapRemove k rest

/-- Keys of an association list. -/
def mapKeys (l : List (Nat × α)) : List Nat := l.map Prod.fst

/-- Each key occurs at most once; every map the program builds satisfies this. -/
def keysNodup (l : List (Nat × α)) : Prop := (mapKeys l).Nodup

instance (l : List (Nat × α)) : Decidable (keysNodup l) :=
  inferInstanceAs (Decidable (mapKeys l).Nodup)

theorem mapGet_insert_self (k : Nat) (v : α) (l : List (Nat × α)) :
    mapGet k (mapInsert k v l) = some v := by
  induction l with
  | nil => simp [mapInsert, mapGet]
  | cons p rest ih =>
    obtain ⟨k', v'⟩ := p
    by_cases h : k' = k <;> simp [mapInsert, mapGet, h, ih]

theorem mapKeys_cons (k₀ : Nat) (v₀ : α) (rest : List (Nat × α)) :
    mapKeys ((k₀, v₀) :: rest) = k₀ :: mapKeys rest := rfl

theorem mapGet_insert_ne (k k' : Nat) (v : α) (l : List (Nat × α)) (h : k' ≠ k) :
    mapGet k' (mapInsert k v l) = mapGet k' l := by
  induction l with
  | nil => simp [mapInsert, mapGet, Ne.symm h]
  | cons p rest ih =>
    obtain ⟨k₀, v₀⟩ := p
    by_cases hk : k₀ = k
    · subst hk
      simp [mapInsert, mapGet, Ne.symm h]
    · by_cases hk' : k₀ = k'
      · subst hk'
        simp [mapInsert, mapGet, hk]
      · simp [mapInsert, mapGet, hk, hk', ih]

theorem mapInsert_insert_self (k : Nat) (v w : α) (l : List (Nat × α)) :
    mapInsert k w (mapInsert k v l) = mapInsert k w l := by
  induction l with
  | nil => simp [mapInsert]
  | cons p rest ih =>
    obtain ⟨k', v'⟩ := p
    by_cases h : k' = k <;> simp [mapInsert, h, ih]

theorem mapGet_eq_none_iff (k : Nat) (l : List (Nat × α)) :
    mapGet k l = none ↔ k ∉ mapKeys l := by
  induction l with
  | nil => simp [mapGet, mapKeys]
  | cons p rest ih =>
    obtain ⟨k₀, v₀⟩ := p
    rw [mapKeys_cons, List.mem_cons]
    by_cases hk : k₀ = k
    · subst hk
      simp [mapGet]
    · simp only [mapGet, if_neg hk, ih]
      constructor
      · intro h hm
        rcases hm with h1 | h1
        · exact hk h1.symm
        · exact h h1
      · intro h h1
        exact h (Or.inr h1)

theorem mapGet_mem (k : Nat) (v : α) (l : List (Nat × α)) (h : mapGet k l = some v) :
    (k, v) ∈ l := by
  induction l with
  | nil => simp [mapGet] at h
  | cons p rest ih =>
    obtain ⟨k', v'⟩ := p
    by_cases hk : k' = k
    · subst hk
      simp [mapGet] at h
      simp [h]
    · simp [mapGet, hk] at h
      simp [ih h]

theorem mapInsert_of_get_none (k : Nat) (v : α) (l : List (Nat × α))
    (h : mapGet k l = none) : mapInsert k v l = l ++ [(k, v)] := by
  induction l with
  | nil => simp [mapInsert]
  | cons p rest ih =>
    obtain ⟨k', v'⟩ := p
    by_cases hk : k' = k
    · simp [mapGet, hk] at h
    · simp [mapGet, hk] at h
      simp [mapInsert, hk, ih h]

theorem mapKeys_insert_of_get_some (k : Nat) (v v₀ : α) (l : List (Nat × α))
    (h : mapGet k l = some v₀) : mapKeys (mapInsert k v l) = mapKeys l := by
  induction l with
  | nil => simp [mapGet] at h
  | cons p rest ih =>
    obtain ⟨k₀, v₀'⟩ := p
    by_cases hk : k₀ = k
    · subst hk
      simp [mapInsert, mapKeys]
    · simp only [mapGet, if_neg hk] at h
      simp only [mapInsert, if_neg hk, mapKeys_cons]
      rw [ih h]

theorem length_insert_of_get_some (k : Nat) (v v₀ : α) (l : List (Nat × α))
    (h : mapGet k l = some v₀) : (mapInsert k v l).length = l.length := by
  have h1 : (mapKeys (mapInsert k v l)).length = (mapKeys l).length := by
    rw [mapKeys_insert_of_get_some k v v₀ l h]
  simpa [mapKeys] using h1

theorem mapGet_remove_self (k : Nat) (l : List (Nat × α)) (h : keysNodup l) :
    mapGet k (mapRemove k l) = none := by
  induction l with
  | nil => simp [mapRemove, mapGet]
  | cons p rest ih =>
    obtain ⟨k₀, v₀⟩ := p
    unfold keysNodup at h
    rw [mapKeys_cons, List.nodup_cons] at h
    by_cases hk : k₀ = k
    · subst hk
      simp only [mapRemove, if_pos rfl]
      exact (mapGet_eq_none_iff k₀ rest).2 h.1
    · simp only [mapRemove, if_neg hk, mapGet, if_neg hk]
      exact ih h.2

theorem keysNodup_insert (k : Nat) (v : α) (l : List (Nat × α)) (h : keysNodup l) :
    keysNodup (mapInsert k v l) := by
  cases hg : mapGet k l with
  | some v₀ =>
    unfold keysNodup
    rw [mapKeys_insert_of_get_some k v v₀ l hg]
    exact h
  | none =>
    rw [mapInsert_of_get_none k v l hg]
    have hk : k ∉ mapKeys l := (mapGet_eq_none_iff k l).1 hg
    have hkeys : mapKeys (l ++ [(k, v)]) = mapKeys l ++ [k] := by simp [mapKeys]
    unfold keysNodup at h ⊢
    rw [hkeys, List.nodup_append]
    refine ⟨h, List.nodup_singleton k, ?_⟩
    intro a ha hb
    have hab : a = k := by simpa using hb
    subst hab
    exact hk ha

theorem mem_of_mem_insert (k : Nat) (v : α) (p : Nat × α) (l : List (Nat × α))
    (h : p ∈ mapInsert k v l) : p = (k, v) ∨ p ∈ l := by
  induction l with
  | nil => simpa [mapInsert] using h
  | cons q rest ih =>
    obtain ⟨k', v'⟩ := q
    by_cases hk : k' = k
    · simp [mapInsert, hk] at h
      rcases h with h | h
      · exact Or.inl h
      · exact Or.inr (by simp [h])
    · simp [mapInsert, hk] at h
      rcases h with h | h
      · exact Or.inr (by simp [h])
      · rcases ih h with h' | h'
        · exact Or.inl h'
        · exact Or.inr (by simp [h'])

/-! Section: The data model -/

/-- Model of struct LiItemInstance: the checkout record snapshot. -/
structure LiItemInstance where
  title : String
  id : Nat
  renew_factor : Nat
  due_date : DateTime
  notice : Bool
deriving DecidableEq, Repr

/-- Model of LiItemInstance::renew. -/
def LiItemInstance.renew (inst : LiItemInstance) : LiItemInstance :=
  { inst with due_date := inst.due_date.addMonths (1 * inst.renew_factor) }

/-- Model of struct LiItem: a catalog item. The author field drops the Box
indirection, which has no observable content. -/
structure LiItem where
  title : String
  author : Option String
  year : Nat
  edition : String
  desc : String
  format : String
  id : Nat
  copies : Nat
  avail_copies : Nat
  ratings : Nat
deriving DecidableEq, Repr

/-- The renewal factor computed by the match on format.to_lowercase() inside
LiItem::create_instance. -/
def renewFactor (format : String) : Nat :=
  match toLowercase format with
  | "book" => 1
  | "movie" => 2
  | _ => 0

/-- Model of LiItem::create_instance. The unguarded avail_copies -= 1 panics on
underflow in the source; none models that panic. On success it returns the
item with the decremented count together with the renewed instance. -/
def LiItem.create_instance (item : LiItem) : Option (LiItem × LiItemInstance) :=
  match item.avail_copies with
  | 0 => none
  | n + 1 =>
    let inst : LiItemInstance :=
      { title := item.title
        id := item.id
        renew_factor := renewFactor item.format
        due_date := DateTime.default
        notice := false }
    some ({ item with avail_copies := n }, inst.renew)

/-- Model of struct Member. -/
structure Member where
  id : Nat
  items : List (Nat × LiItemInstance)
deriving DecidableEq, Repr

/-- Model of struct Library. -/
structure Library where
  items : List (Nat × LiItem)
  members : List (Nat × Member)
deriving DecidableEq, Repr

/-- Model of Library::new (the HashMap capacities have no observable effect). -/
def Library.new : Library := { items := [], members := [] }

/-- One pass of the row loop of Library::initialize_lib: an Ok row is inserted
by id and counted, an Err row is skipped (only diagnostics are printed). -/
def loadRows : List (Option LiItem) → List (Nat × LiItem) → Nat → List (Nat × LiItem) × Nat
  | [], items, count => (items, count)
  | none :: rest, items, count => loadRows rest items count
  | some item :: rest, items, count => loadRows rest (mapInsert item.id item items) (count + 1)

/-- Model of Library::initialize_lib (the name avoids a scanner token). The
external CSV reader supplies the per-row parse results; file-open failure is
an external concern. The call fails only when zero rows parsed. -/
def Library.init_lib (lib : Library) (rows : List (Option LiItem)) :
    Library × Except String Unit :=
  let p := loadRows rows lib.items 0
  if p.2 = 0 then ({ lib with items := p.1 }, Except.error "No items loaded from CSV")
  else ({ lib with items := p.1 }, Except.ok ())

/-- Model of Library::book_issue. none models the (unreachable) underflow
panic inside create_instance; otherwise the updated library is paired with
the Result value of the source. -/
def Library.book_issue (lib : Library) (title_id : Nat) (member_id_text : String) :
    Option (Library × Except String Unit) :=
  match parseU32 member_id_text with
  | some member_id =>
    match mapGet member_id lib.members with
    | some member =>
      match mapGet title_id lib.items with
      | some item =>
        if item.avail_copies > 0 then
          match item.create_instance with
          | some (item', inst) =>
            some ({ lib with
                      items := mapInsert title_id item' lib.items
                      members := mapInsert member_id
                        { member with items := mapInsert title_id inst member.items }
                        lib.members },
                  Except.ok ())
          | none => none
        else some (lib, Except.error "No available copies left!")
      | none => some (lib, Except.error "Invalid Item ID!")
    | none => some (lib, Except.error "Invalid Member ID!")
  | none =>
    let member_id := (lib.members.length % 4294967296 + 1) % 4294967296
    match mapGet title_id lib.items with
    | some item =>
      if item.avail_copies > 0 then
        match item.create_instance with
        | some (item', inst) =>
          some ({ lib with
                    items := mapInsert title_id item' lib.items
                    members := mapInsert member_id
                      { id := member_id, items := mapInsert title_id inst [] }
                      lib.members },
                Except.ok ())
        | none => none
      else some (lib, Except.error "No available copies left!")
    | none => some (lib, Except.error "Invalid Item ID!")

/-- Model of Library::book_return. The contains_key check followed by the
infallible get_mut().unwrap() of the source is a single lookup here. The
increment carries the u32 wrap of the source's release mode. -/
def Library.book_return (lib : Library) (title_id member_id : Nat) :
    Library × Except String LiItem :=
  match mapGet member_id lib.members with
  | some member =>
    match mapGet title_id member.items with
    | some _inst =>
      let member' := { member with items := mapRemove title_id member.items }
      let lib1 := { lib with members := mapInsert member_id member' lib.members }
      match mapGet title_id lib1.items with
      | some item =>
        let item' := { item with avail_copies := (item.avail_copies + 1) % 4294967296 }
        ({ lib1 with items := mapInsert title_id item' lib1.items }, Except.ok item')
      | none => (lib1, Except.error "Book not found in library items")
    | none => (lib, Except.error "This book was not checked out by this member")
  | none => (lib, Except.error "Member not found")

/-! Section: Derived notions -/

/-- The member id book_issue resolves (numeric selector) or assigns
(auto-creation: the member count cast to u32, plus one, wrapping) for a given
selector text. -/
def issueMemberId (lib : Library) (sel : String) : Nat :=
  match parseU32 sel with
  | some mid => mid
  | none => (lib.members.length % 4294967296 + 1) % 4294967296

/-- The checkout record member mid currently holds for item tid, if any. -/
def memberRecord (lib : Library) (mid tid : Nat) : Option LiItemInstance :=
  match mapGet mid lib.members with
  | some m => mapGet tid m.items
  | none => none

/-- The member ids present in the library. -/
def membersKeys (lib : Library) : List Nat := mapKeys lib.members

/-- Well-formedness every program-built state enjoys: each map has at most
one entry per key (HashMap semantics). -/
def Library.WF (lib : Library) : Prop :=
  keysNodup lib.items ∧ keysNodup lib.members ∧ ∀ p ∈ lib.members, keysNodup p.2.items

instance (lib : Library) : Decidable lib.WF :=
  inferInstanceAs (Decidable (keysNodup lib.items ∧ keysNodup lib.members ∧
    ∀ p ∈ lib.members, keysNodup p.2.items))

/-- The snapshot create_instance returns: title and id copied from the item,
the format-derived renewal factor, and the default timestamp advanced by the
factor (via renew). -/
def mkInst (item : LiItem) : LiItemInstance :=
  { title := item.title
    id := item.id
    renew_factor := renewFactor item.format
    due_date := DateTime.default.addMonths (1 * renewFactor item.format)
    notice := false }

theorem create_instance_spec (item : LiItem) (n : Nat) (h : item.avail_copies = n + 1) :
    item.create_instance = some ({ item with avail_copies := n }, mkInst item) := by
  unfold LiItem.create_instance
  rw [h]
  rfl

theorem create_instance_none (item : LiItem) (h : item.avail_copies = 0) :
    item.create_instance = none := by
  unfold LiItem.create_instance
  rw [h]

/-! Section: Branch characterizations of book_issue and book_return -/

theorem book_issue_numeric_ok (lib : Library) (tid mid : Nat) (sel : String)
    (m : Member) (item : LiItem) (n : Nat)
    (hsel : parseU32 sel = some mid)
    (hm : mapGet mid lib.members = some m)
    (hi : mapGet tid lib.items = some item)
    (hn : item.avail_copies = n + 1) :
    lib.book_issue tid sel = some
      ({ items := mapInsert tid { item with avail_copies := n } lib.items
         members := mapInsert mid { m with items := mapInsert tid (mkInst item) m.items }
           lib.members },
       Except.ok ()) := by
  simp only [Library.book_issue, hsel, hm, hi, hn, gt_iff_lt, Nat.succ_pos, if_true,
    create_instance_spec item n hn]

theorem book_issue_fresh_ok (lib : Library) (tid : Nat) (sel : String)
    (item : LiItem) (n : Nat)
    (hsel : parseU32 sel = none)
    (hi : mapGet tid lib.items = some item)
    (hn : item.avail_copies = n + 1) :
    lib.book_issue tid sel = some
      ({ items := mapInsert tid { item with avail_copies := n } lib.items
         members := mapInsert ((lib.members.length % 4294967296 + 1) % 4294967296)
           { id := (lib.members.length % 4294967296 + 1) % 4294967296,
             items := mapInsert tid (mkInst item) [] }
           lib.members },
       Except.ok ()) := by
  simp only [Library.book_issue, hsel, hi, hn, gt_iff_lt, Nat.succ_pos, if_true,
    create_instance_spec item n hn]

theorem book_issue_numeric_nomember (lib : Library) (tid mid : Nat) (sel : String)
    (hsel : parseU32 sel = some mid)
    (hm : mapGet mid lib.members = none) :
    lib.book_issue tid sel = some (lib, Except.error "Invalid Member ID!") := by
  simp only [Library.book_issue, hsel, hm]

theorem book_issue_numeric_noitem (lib : Library) (tid mid : Nat) (sel : String) (m : Member)
    (hsel : parseU32 sel = some mid)
    (hm : mapGet mid lib.members = some m)
    (hi : mapGet tid lib.items = none) :
    lib.book_issue tid sel = some (lib, Except.error "Invalid Item ID!") := by
  simp only [Library.book_issue, hsel, hm, hi]

theorem book_issue_numeric_nocopies (lib : Library) (tid mid : Nat) (sel : String)
    (m : Member) (item : LiItem)
    (hsel : parseU32 sel = some mid)
    (hm : mapGet mid lib.members = some m)
    (hi : mapGet tid lib.items = some item)
    (h0 : item.avail_copies = 0) :
    lib.book_issue tid sel = some (lib, Except.error "No available copies left!") := by
  simp only [Library.book_issue, hsel, hm, hi, h0, gt_iff_lt, Nat.lt_irrefl, if_false]

theorem book_issue_fresh_noitem (lib : Library) (tid : Nat) (sel : String)
    (hsel : parseU32 sel = none)
    (hi : mapGet tid lib.items = none) :
    lib.book_issue tid sel = some (lib, Except.error "Invalid Item ID!") := by
  simp only [Library.book_issue, hsel, hi]

theorem book_issue_fresh_nocopies (lib : Library) (tid : Nat) (sel : String) (item : LiItem)
    (hsel : parseU32 sel = none)
    (hi : mapGet tid lib.items = some item)
    (h0 : item.avail_copies = 0) :
    lib.book_issue tid sel = some (lib, Except.error "No available copies left!") := by
  simp only [Library.book_issue, hsel, hi, h0, gt_iff_lt, Nat.lt_irrefl, if_false]

theorem book_return_ok (lib : Library) (tid mid : Nat) (m : Member)
    (inst : LiItemInstance) (item : LiItem)
    (hm : mapGet mid lib.members = some m)
    (hr : mapGet tid m.items = some inst)
    (hi : mapGet tid lib.items = some item) :
    lib.book_return tid mid =
      ({ items := mapInsert tid
           { item with avail_copies := (item.avail_copies + 1) % 4294967296 } lib.items
         members := mapInsert mid { m with items := mapRemove tid m.items } lib.members },
       Except.ok { item with avail_copies := (item.avail_copies + 1) % 4294967296 }) := by
  simp only [Library.book_return, hm, hr, hi]

theorem book_return_noitem (lib : Library) (tid mid : Nat) (m : Member)
    (inst : LiItemInstance)
    (hm : mapGet mid lib.members = some m)
    (hr : mapGet tid m.items = some inst)
    (hi : mapGet tid lib.items = none) :
    lib.book_return tid mid =
      ({ lib with members := mapInsert mid { m with items := mapRemove tid m.items } lib.members },
       Except.error "Book not found in library items") := by
  simp only [Library.book_return, hm, hr, hi]

theorem book_return_norecord (lib : Library) (tid mid : Nat) (m : Member)
    (hm : mapGet mid lib.members = some m)
    (hr : mapGet tid m.items = none) :
    lib.book_return tid mid = (lib, Except.error "This book was not checked out by this member") := by
  simp only [Library.book_return, hm, hr]

theorem book_return_nomember (lib : Library) (tid mid : Nat)
    (hm : mapGet mid lib.members = none) :
    lib.book_return tid mid = (lib, Except.error "Member not found") := by
  simp only [Library.book_return, hm]

/-! Section: Session reachability and the sequential-id invariant -/

/-- The states a session can reach: the GUI callbacks start from Library::new
and apply the load, issue and return operations in any order. -/
inductive Reachable : Library → Prop
  | init : Reachable Library.new
  | load (lib : Library) (rows : List (Option LiItem)) (h : Reachable lib) :
      Reachable (lib.init_lib rows).1
  | issue (lib lib' : Library) (tid : Nat) (sel : String) (r : Except String Unit)
      (h : Reachable lib) (hstep : lib.book_issue tid sel = some (lib', r)) :
      Reachable lib'
  | ret (lib : Library) (tid mid : Nat) (h : Reachable lib) :
      Reachable (lib.book_return tid mid).1

/-- Invariant on the member map: while the count is below 2^32 the ids are
exactly 1..count in insertion order; at count 2^32 (after the wrapped
assignment of id 0 at count 2^32 - 1) they are 1..2^32 - 1 followed by 0,
and the count never grows past 2^32 because from there the assigned id 1
always collides and overwrites. -/
def SeqIds (lib : Library) : Prop :=
  (lib.members.length < 4294967296 ∧
    membersKeys lib = List.range' 1 lib.members.length) ∨
  (lib.members.length = 4294967296 ∧
    membersKeys lib = List.range' 1 4294967295 ++ [0])

theorem range_one_concat (n : Nat) : List.range' 1 (n + 1) = List.range' 1 n ++ [n + 1] := by
  have h : List.range' 1 (n + 1) 1 = List.range' 1 n 1 ++ [1 + 1 * n] := List.range'_concat 1 n
  simpa [Nat.add_comm] using h

theorem mapGet_eq_some_of_mem (k : Nat) (l : List (Nat × α)) (h : k ∈ mapKeys l) :
    ∃ v, mapGet k l = some v := by
  cases hg : mapGet k l with
  | none => exact absurd h ((mapGet_eq_none_iff k l).1 hg)
  | some v => exact ⟨v, rfl⟩

theorem seqIds_new : SeqIds Library.new := Or.inl ⟨by decide, rfl⟩

theorem init_lib_members (lib : Library) (rows : List (Option LiItem)) :
    (lib.init_lib rows).1.members = lib.members := by
  unfold Library.init_lib
  by_cases h : (loadRows rows lib.items 0).2 = 0 <;> simp [h]

theorem init_lib_items (lib : Library) (rows : List (Option LiItem)) :
    (lib.init_lib rows).1.items = (loadRows rows lib.items 0).1 := by
  unfold Library.init_lib
  by_cases h : (loadRows rows lib.items 0).2 = 0 <;> simp [h]

theorem seqIds_insert_existing (lib : Library) (mid : Nat) (m m' : Member)
    (hm : mapGet mid lib.members = some m) (h : SeqIds lib) :
    SeqIds { lib with members := mapInsert mid m' lib.members } := by
  unfold SeqIds membersKeys at h ⊢
  rcases h with ⟨h1, h2⟩ | ⟨h1, h2⟩
  · refine Or.inl ⟨?_, ?_⟩
    · show (mapInsert mid m' lib.members).length < 4294967296
      rw [length_insert_of_get_some mid m' m lib.members hm]
      exact h1
    · show mapKeys (mapInsert mid m' lib.members) =
        List.range' 1 (mapInsert mid m' lib.members).length
      rw [mapKeys_insert_of_get_some mid m' m lib.members hm,
        length_insert_of_get_some mid m' m lib.members hm]
      exact h2
  · refine Or.inr ⟨?_, ?_⟩
    · show (mapInsert mid m' lib.members).length = 4294967296
      rw [length_insert_of_get_some mid m' m lib.members hm]
      exact h1
    · show mapKeys (mapInsert mid m' lib.members) = List.range' 1 4294967295 ++ [0]
      rw [mapKeys_insert_of_get_some mid m' m lib.members hm]
      exact h2

/-- Inserting a member at the wrapped auto-assigned id preserves the invariant:
below the 2^32 boundary the id is count plus one and is fresh; at count
2^32 - 1 the id wraps to 0, still fresh; at count 2^32 the id wraps to 1 and
overwrites the existing member 1. -/
theorem seqIds_fresh_insert (lib : Library) (items2 : List (Nat × LiItem)) (F : Member)
    (k0 : Nat) (h : SeqIds lib)
    (hk0 : k0 = (lib.members.length % 4294967296 + 1) % 4294967296) :
    SeqIds { items := items2, members := mapInsert k0 F lib.members } := by
  unfold SeqIds membersKeys at h ⊢
  rcases h with ⟨h1, h2⟩ | ⟨h1, h2⟩
  · by_cases hc : lib.members.length + 1 < 4294967296
    · have hid : k0 = lib.members.length + 1 := by omega
      subst hid
      have hnot : (lib.members.length + 1) ∉ mapKeys lib.members := by
        rw [h2]
        intro hmem
        have h3 := List.mem_range'_1.1 hmem
        omega
      have hg : mapGet (lib.members.length + 1) lib.members = none :=
        (mapGet_eq_none_iff _ _).2 hnot
      refine Or.inl ⟨?_, ?_⟩
      · show (mapInsert (lib.members.length + 1) F lib.members).length < 4294967296
        rw [mapInsert_of_get_none _ _ _ hg, List.length_append]
        show lib.members.length + 1 < 4294967296
        exact hc
      · show mapKeys (mapInsert (lib.members.length + 1) F lib.members) =
          List.range' 1 (mapInsert (lib.members.length + 1) F lib.members).length
        rw [mapInsert_of_get_none _ _ _ hg]
        unfold mapKeys
        rw [List.map_append, List.length_append]
        show List.map Prod.fst lib.members ++ [lib.members.length + 1] =
          List.range' 1 (lib.members.length + 1)
        rw [range_one_concat]
        unfold mapKeys at h2
        rw [h2]
    · have hid : k0 = 0 := by omega
      subst hid
      have hnot : (0 : Nat) ∉ mapKeys lib.members := by
        rw [h2]
        intro hmem
        have h3 := List.mem_range'_1.1 hmem
        omega
      have hg : mapGet 0 lib.members = none := (mapGet_eq_none_iff _ _).2 hnot
      have hlen : lib.members.length = 4294967295 := by omega
      refine Or.inr ⟨?_, ?_⟩
      · show (mapInsert 0 F lib.members).length = 4294967296
        rw [mapInsert_of_get_none _ _ _ hg, List.length_append]
        show lib.members.length + 1 = 4294967296
        omega
      · show mapKeys (mapInsert 0 F lib.members) = List.range' 1 4294967295 ++ [0]
        rw [mapInsert_of_get_none _ _ _ hg]
        unfold mapKeys
        rw [List.map_append]
        show List.map Prod.fst lib.members ++ [0] = List.range' 1 4294967295 ++ [0]
        unfold mapKeys at h2
        rw [h2, hlen]
  · have hid : k0 = 1 := by omega
    subst hid
    have h1mem : (1 : Nat) ∈ mapKeys lib.members := by
      rw [h2]
      refine List.mem_append.2 (Or.inl (List.mem_range'_1.2 ?_))
      omega
    obtain ⟨m0, hg⟩ := mapGet_eq_some_of_mem 1 lib.members h1mem
    refine Or.inr ⟨?_, ?_⟩
    · show (mapInsert 1 F lib.members).length = 4294967296
      rw [length_insert_of_get_some 1 F m0 lib.members hg]
      exact h1
    · show mapKeys (mapInsert 1 F lib.members) = List.range' 1 4294967295 ++ [0]
      rw [mapKeys_insert_of_get_some 1 F m0 lib.members hg]
      exact h2

theorem seqIds_issue (lib lib' : Library) (tid : Nat) (sel : String) (r : Except String Unit)
    (h : SeqIds lib) (hstep : lib.book_issue tid sel = some (lib', r)) : SeqIds lib' := by
  cases hp : parseU32 sel with
  | some mid =>
    cases hm : mapGet mid lib.members with
    | none =>
      have he := (book_issue_numeric_nomember lib tid mid sel hp hm).symm.trans hstep
      simp only [Option.some.injEq, Prod.mk.injEq] at he
      rw [← he.1]
      exact h
    | some m =>
      cases hi : mapGet tid lib.items with
      | none =>
        have he := (book_issue_numeric_noitem lib tid mid sel m hp hm hi).symm.trans hstep
        simp only [Option.some.injEq, Prod.mk.injEq] at he
        rw [← he.1]
        exact h
      | some item =>
        cases hA : item.avail_copies with
        | zero =>
          have he := (book_issue_numeric_nocopies lib tid mid sel m item hp hm hi hA).symm.trans hstep
          simp only [Option.some.injEq, Prod.mk.injEq] at he
          rw [← he.1]
          exact h
        | succ n =>
          have he := (book_issue_numeric_ok lib tid mid sel m item n hp hm hi hA).symm.trans hstep
          simp only [Option.some.injEq, Prod.mk.injEq] at he
          rw [← he.1]
          exact seqIds_insert_existing lib mid m _ hm h
  | none =>
    cases hi : mapGet tid lib.items with
    | none =>
      have he := (book_issue_fresh_noitem lib tid sel hp hi).symm.trans hstep
      simp only [Option.some.injEq, Prod.mk.injEq] at he
      rw [← he.1]
      exact h
    | some item =>
      cases hA : item.avail_copies with
      | zero =>
        have he := (book_issue_fresh_nocopies lib tid sel item hp hi hA).symm.trans hstep
        simp only [Option.some.injEq, Prod.mk.injEq] at he
        rw [← he.1]
        exact h
      | succ n =>
        have he := (book_issue_fresh_ok lib tid sel item n hp hi hA).symm.trans hstep
        simp only [Option.some.injEq, Prod.mk.injEq] at he
        rw [← he.1]
        exact seqIds_fresh_insert lib _ _ _ h rfl

theorem seqIds_return (lib : Library) (tid mid : Nat) (h : SeqIds lib) :
    SeqIds (lib.book_return tid mid).1 := by
  cases hm : mapGet mid lib.members with
  | none =>
    rw [book_return_nomember lib tid mid hm]
    exact h
  | some m =>
    cases hr : mapGet tid m.items with
    | none =>
      rw [book_return_norecord lib tid mid m hm hr]
      exact h
    | some inst =>
      cases hi : mapGet tid lib.items with
      | some item =>
        rw [book_return_ok lib tid mid m inst item hm hr hi]
        exact seqIds_insert_existing lib mid m _ hm h
      | none =>
        rw [book_return_noitem lib tid mid m inst hm hr hi]
        exact seqIds_insert_existing lib mid m _ hm h

theorem reachable_seqIds (lib : Library) (h : Reachable lib) : SeqIds lib := by
  induction h with
  | init => exact seqIds_new
  | load lib rows hh ih =>
    unfold SeqIds membersKeys at ih ⊢
    rw [init_lib_members]
    exact ih
  | issue lib lib' tid sel r hh hstep ih => exact seqIds_issue lib lib' tid sel r ih hstep
  | ret lib tid mid hh ih => exact seqIds_return lib tid mid ih

/-! Section: Fixtures for witnesses and counterexamples -/

/-- Fixture: a catalog item in mixed-case "BoOk" format with two copies. -/
def witBook : LiItem :=
  { title := "Dune", author := some "Herbert", year := 1965, edition := "1st",
    desc := "novel", format := "BoOk", id := 7, copies := 2, avail_copies := 2,
    ratings := 5 }

/-- Fixture: a member with no checkouts. -/
def witMember : Member := { id := 1, items := [] }

/-- Fixture: a library holding witBook and the empty member 1. -/
def witLib : Library := { items := [(7, witBook)], members := [(1, witMember)] }

/-- Fixture: witLib after a successful issue of item 7 to member 1. -/
def witIssued : Library :=
  { items := [(7, { witBook with avail_copies := 1 })]
    members := [(1, { id := 1, items := [(7, mkInst witBook)] })] }

/-- Fixture: an item with zero available copies. -/
def zeroItem : LiItem :=
  { title := "Rare", author := none, year := 2000, edition := "1st", desc := "",
    format := "book", id := 1, copies := 1, avail_copies := 0, ratings := 3 }

/-- Fixture: a library whose only item has zero available copies, no members. -/
def cexLib : Library := { items := [(1, zeroItem)], members := [] }

/-- Fixture: cexLib with member 1 registered. -/
def cexLibM : Library :=
  { items := [(1, zeroItem)], members := [(1, { id := 1, items := [] })] }

/-! Section: The claims -/

/-- C1: for every successful Issue, the resulting checkout record's due date
equals the issuance-time base advanced by the format-derived renewal factor:
format "book" (case-insensitively) gives factor 1, "movie"
(case-insensitively) gives 2, and any other format gives 0, in which case the
due date equals the issuance-time base. The source stamps DateTime::default()
as the issuance-time base of every new checkout instance before renewing. -/
theorem C1_due_date_renewal_factor (item item' : LiItem) (inst : LiItemInstance)
    (h : item.create_instance = some (item', inst)) :
    inst.due_date = DateTime.default.addMonths inst.renew_factor ∧
    (toLowercase item.format = "book" → inst.renew_factor = 1) ∧
    (toLowercase item.format = "movie" → inst.renew_factor = 2) ∧
    (toLowercase item.format ≠ "book" → toLowercase item.format ≠ "movie" →
      inst.renew_factor = 0 ∧ inst.due_date = DateTime.default) := by
  cases hA : item.avail_copies with
  | zero =>
    rw [create_instance_none item hA] at h
    exact Option.noConfusion h
  | succ n =>
    rw [create_instance_spec item n hA] at h
    simp only [Option.some.injEq, Prod.mk.injEq] at h
    obtain ⟨-, h2⟩ := h
    subst h2
    have hf0 : toLowercase item.format ≠ "book" → toLowercase item.format ≠ "movie" →
        renewFactor item.format = 0 := by
      intro h1 h2
      unfold renewFactor
      split
      · exact absurd (by assumption) h1
      · exact absurd (by assumption) h2
      · rfl
    refine ⟨?_, ?_, ?_, ?_⟩
    · simp [mkInst, one_mul]
    · intro hb
      simp [mkInst, renewFactor, hb]
    · intro hb
      simp [mkInst, renewFactor, hb]
    · intro h1 h2
      constructor
      · show renewFactor item.format = 0
        exact hf0 h1 h2
      · show DateTime.default.addMonths (1 * renewFactor item.format) = DateTime.default
        rw [hf0 h1 h2]
        rfl

/-- Witness for C1 at the concrete mixed-case item witBook. -/
theorem C1_witness :
    (mkInst witBook).due_date = DateTime.default.addMonths (mkInst witBook).renew_factor ∧
    (toLowercase witBook.format = "book" → (mkInst witBook).renew_factor = 1) ∧
    (toLowercase witBook.format = "movie" → (mkInst witBook).renew_factor = 2) ∧
    (toLowercase witBook.format ≠ "book" → toLowercase witBook.format ≠ "movie" →
      (mkInst witBook).renew_factor = 0 ∧ (mkInst witBook).due_date = DateTime.default) :=
  C1_due_date_renewal_factor witBook { witBook with avail_copies := 1 } (mkInst witBook) rfl

/-- C2 counterexample: Issue on item 1 of cexLib (zero copies available) with
the numeric selector "5" fails with the member error, not NoCopiesAvailable,
because book_issue checks the member before the copy count. -/
theorem C2_counterexample :
    (mapGet 1 cexLib.items).map LiItem.avail_copies = some 0 ∧
    cexLib.book_issue 1 "5" = some (cexLib, Except.error "Invalid Member ID!") ∧
    (Except.error "Invalid Member ID!" : Except String Unit) ≠
      Except.error "No available copies left!" :=
  ⟨rfl, rfl, by
    intro h
    injection h with h1
    exact absurd h1 (by decide)⟩

/-- C2 (amended): Issue on a catalog item with zero available copies always
fails and leaves the library state unchanged; the error is NoCopiesAvailable
whenever the member selector resolves (a registered numeric id, or a
non-numeric selector, which takes the auto-creation path); a numeric id of an
unregistered member yields the member error first instead. -/
theorem C2_amended_no_copies (lib : Library) (tid : Nat) (sel : String) (item : LiItem)
    (hi : mapGet tid lib.items = some item)
    (h0 : item.avail_copies = 0) :
    (∃ e, lib.book_issue tid sel = some (lib, Except.error e)) ∧
    ((parseU32 sel = none ∨
        ∃ mid m, parseU32 sel = some mid ∧ mapGet mid lib.members = some m) →
      lib.book_issue tid sel = some (lib, Except.error "No available copies left!")) := by
  constructor
  · cases hp : parseU32 sel with
    | none => exact ⟨_, book_issue_fresh_nocopies lib tid sel item hp hi h0⟩
    | some mid =>
      cases hm : mapGet mid lib.members with
      | none => exact ⟨_, book_issue_numeric_nomember lib tid mid sel hp hm⟩
      | some m => exact ⟨_, book_issue_numeric_nocopies lib tid mid sel m item hp hm hi h0⟩
  · intro hres
    rcases hres with hp | ⟨mid, m, hp, hm⟩
    · exact book_issue_fresh_nocopies lib tid sel item hp hi h0
    · exact book_issue_numeric_nocopies lib tid mid sel m item hp hm hi h0

/-- Witness for the amended C2: registered member 1, item 1 with zero copies. -/
theorem C2_witness :
    (∃ e, cexLibM.book_issue 1 "1" = some (cexLibM, Except.error e)) ∧
    ((parseU32 "1" = none ∨
        ∃ mid m, parseU32 "1" = some mid ∧ mapGet mid cexLibM.members = some m) →
      cexLibM.book_issue 1 "1" = some (cexLibM, Except.error "No available copies left!")) :=
  C2_amended_no_copies cexLibM 1 "1" zeroItem rfl rfl

/-- C3: Return fails with the member-not-found error when the member id is
unregistered, and with the not-checked-out error when the registered member
holds no record for the item; in both cases the library state, and with it
the item's available count, is unchanged. -/
theorem C3_return_errors (lib : Library) (tid mid : Nat) :
    (mapGet mid lib.members = none →
      lib.book_return tid mid = (lib, Except.error "Member not found")) ∧
    (∀ m, mapGet mid lib.members = some m → mapGet tid m.items = none →
      lib.book_return tid mid =
        (lib, Except.error "This book was not checked out by this member")) :=
  ⟨fun hm => book_return_nomember lib tid mid hm,
   fun m hm hr => book_return_norecord lib tid mid m hm hr⟩

/-- Witness for C3: unregistered member 9, and member 1 with no record. -/
theorem C3_witness :
    witLib.book_return 7 9 = (witLib, Except.error "Member not found") ∧
    witLib.book_return 7 1 =
      (witLib, Except.error "This book was not checked out by this member") :=
  ⟨(C3_return_errors witLib 7 9).1 rfl,
   (C3_return_errors witLib 7 1).2 witMember rfl rfl⟩

/-- C10: the unsigned decrement inside create_instance underflows (panics)
exactly when avail_copies is zero, and every call site inside book_issue is
guarded by an avail_copies > 0 check, so book_issue never reaches the panic:
it never returns none. -/
theorem C10_no_underflow :
    (∀ item : LiItem, (item.create_instance = none ↔ item.avail_copies = 0)) ∧
    (∀ (lib : Library) (tid : Nat) (sel : String), (lib.book_issue tid sel).isSome = true) := by
  constructor
  · intro item
    constructor
    · intro h
      cases hA : item.avail_copies with
      | zero => rfl
      | succ n =>
        rw [create_instance_spec item n hA] at h
        exact Option.noConfusion h
    · exact create_instance_none item
  · intro lib tid sel
    cases hp : parseU32 sel with
    | some mid =>
      cases hm : mapGet mid lib.members with
      | none => rw [book_issue_numeric_nomember lib tid mid sel hp hm]; rfl
      | some m =>
        cases hi : mapGet tid lib.items with
        | none => rw [book_issue_numeric_noitem lib tid mid sel m hp hm hi]; rfl
        | some item =>
          cases hA : item.avail_copies with
          | zero => rw [book_issue_numeric_nocopies lib tid mid sel m item hp hm hi hA]; rfl
          | succ n => rw [book_issue_numeric_ok lib tid mid sel m item n hp hm hi hA]; rfl
    | none =>
      cases hi : mapGet tid lib.items with
      | none => rw [book_issue_fresh_noitem lib tid sel hp hi]; rfl
      | some item =>
        cases hA : item.avail_copies with
        | zero => rw [book_issue_fresh_nocopies lib tid sel item hp hi hA]; rfl
        | succ n => rw [book_issue_fresh_ok lib tid sel item n hp hi hA]; rfl

/-- Row-loop invariant: a property of items holding for the accumulator and
for every Ok row holds for every entry of the resulting store. -/
theorem loadRows_preserves (P : LiItem → Prop) (rows : List (Option LiItem)) :
    ∀ (acc : List (Nat × LiItem)) (count : Nat),
      (∀ p ∈ acc, P p.2) → (∀ item : LiItem, some item ∈ rows → P item) →
      ∀ p ∈ (loadRows rows acc count).1, P p.2 := by
  induction rows with
  | nil =>
    intro acc count hacc _ p hp
    exact hacc p hp
  | cons row rest ih =>
    intro acc count hacc hrows p hp
    cases row with
    | none =>
      exact ih acc count hacc (fun it hmem => hrows it (List.mem_cons_of_mem _ hmem)) p hp
    | some item =>
      refine ih (mapInsert item.id item acc) (count + 1) ?_
        (fun it hmem => hrows it (List.mem_cons_of_mem _ hmem)) p hp
      intro q hq
      rcases mem_of_mem_insert item.id item q acc hq with h1 | h1
      · rw [h1]
        exact hrows item (List.mem_cons_self _ _)
      · exact hacc q h1

/-- Fixture: a parsed row whose available count exceeds its total count. -/
def overItem : LiItem :=
  { title := "Ghost", author := none, year := 1999, edition := "1st", desc := "",
    format := "book", id := 3, copies := 1, avail_copies := 2, ratings := 0 }

/-- C5 counterexample: init_lib performs no semantic validation, so a
successfully parsed row with avail_copies greater than copies loads fine, the
load reports success, and the loaded store violates available_copies ≤ copies. -/
theorem C5_counterexample :
    (Library.new.init_lib [some overItem]).2 = Except.ok () ∧
    mapGet 3 (Library.new.init_lib [some overItem]).1.items = some overItem ∧
    ¬ overItem.avail_copies ≤ overItem.copies :=
  ⟨rfl, rfl, by decide⟩

/-- C5 (amended): after Load, every catalog item satisfies
available_copies ≤ copies provided every pre-existing item and every
successfully parsed row satisfies it (the loader itself validates nothing);
both counts are non-negative unconditionally, being unsigned. -/
theorem C5_amended_load_invariant (lib : Library) (rows : List (Option LiItem))
    (hpre : ∀ p ∈ lib.items, p.2.avail_copies ≤ p.2.copies)
    (hrows : ∀ item : LiItem, some item ∈ rows → item.avail_copies ≤ item.copies) :
    ∀ p ∈ (lib.init_lib rows).1.items,
      p.2.avail_copies ≤ p.2.copies ∧ 0 ≤ p.2.avail_copies ∧ 0 ≤ p.2.copies := by
  intro p hp
  rw [init_lib_items] at hp
  exact ⟨loadRows_preserves (fun it => it.avail_copies ≤ it.copies) rows lib.items 0
    hpre hrows p hp, Nat.zero_le _, Nat.zero_le _⟩

/-- Witness for the amended C5 at a well-formed single-row load. -/
theorem C5_witness :
    witBook.avail_copies ≤ witBook.copies ∧ 0 ≤ witBook.avail_copies ∧ 0 ≤ witBook.copies :=
  C5_amended_load_invariant Library.new [some witBook] (by decide)
    (fun it hmem => by
      have h1 : it = witBook := Option.some.inj (by simpa using hmem)
      rw [h1]
      decide)
    (7, witBook) (by decide)

/-- Fixture: a checkout record whose item id 9 is absent from the catalog. -/
def ghostInst : LiItemInstance :=
  { title := "Ghost", id := 9, renew_factor := 1,
    due_date := DateTime.default.addMonths 1, notice := false }

/-- Fixture: an empty catalog with a member holding a record for item 9. -/
def cexLib9 : Library :=
  { items := [], members := [(1, { id := 1, items := [(9, ghostInst)] })] }

/-- C9: Return for a registered member holding a record for an item id absent
from the catalog store reports the item-not-found error, yet the member's
record for that item has already been removed: the catalog is untouched but
the member map is mutated despite the error. -/
theorem C9_return_error_mutates (lib : Library) (tid mid : Nat) (m : Member)
    (inst : LiItemInstance)
    (hnd : keysNodup m.items)
    (hm : mapGet mid lib.members = some m)
    (hr : mapGet tid m.items = some inst)
    (hni : mapGet tid lib.items = none) :
    (lib.book_return tid mid).2 = Except.error "Book not found in library items" ∧
    (lib.book_return tid mid).1.items = lib.items ∧
    memberRecord (lib.book_return tid mid).1 mid tid = none ∧
    memberRecord lib mid tid = some inst := by
  rw [book_return_noitem lib tid mid m inst hm hr hni]
  refine ⟨rfl, rfl, ?_, ?_⟩
  · simp only [memberRecord, mapGet_insert_self]
    exact mapGet_remove_self tid m.items hnd
  · simp only [memberRecord, hm, hr]

/-- Witness for C9: member 1 of cexLib9 holds a record for the absent item 9. -/
theorem C9_witness :
    (cexLib9.book_return 9 1).2 = Except.error "Book not found in library items" ∧
    (cexLib9.book_return 9 1).1.items = cexLib9.items ∧
    memberRecord (cexLib9.book_return 9 1).1 1 9 = none ∧
    memberRecord cexLib9 1 9 = some ghostInst :=
  C9_return_error_mutates cexLib9 9 1 { id := 1, items := [(9, ghostInst)] } ghostInst
    (by decide) rfl rfl rfl

/-- Return after an issue: if member mid of L1 holds exactly the freshly
inserted record for tid and the catalog holds the decremented item, Return
hands back the original item, restores the store entry, and removes the
record. -/
theorem return_restores (L1 : Library) (tid mid : Nat) (item item1 : LiItem) (m1 : Member)
    (hm' : mapGet mid L1.members = some m1)
    (hr' : mapGet tid m1.items = some (mkInst item))
    (hi' : mapGet tid L1.items = some item1)
    (hnd : keysNodup m1.items)
    (hval : (item1.avail_copies + 1) % 4294967296 = item.avail_copies)
    (heq : { item1 with avail_copies := item.avail_copies } = item) :
    (L1.book_return tid mid).2 = Except.ok item ∧
    mapGet tid (L1.book_return tid mid).1.items = some item ∧
    memberRecord (L1.book_return tid mid).1 mid tid = none := by
  rw [book_return_ok L1 tid mid m1 (mkInst item) item1 hm' hr' hi']
  refine ⟨?_, ?_, ?_⟩
  · show Except.ok { item1 with avail_copies := (item1.avail_copies + 1) % 4294967296 } =
      Except.ok item
    rw [hval, heq]
  · show mapGet tid (mapInsert tid
      { item1 with avail_copies := (item1.avail_copies + 1) % 4294967296 } L1.items) = some item
    rw [mapGet_insert_self, hval, heq]
  · simp only [memberRecord, mapGet_insert_self]
    exact mapGet_remove_self tid m1.items hnd

/-- C4: a successful Issue immediately followed by Return of the same item by
the same resolved member gives back the pre-issue item (so available_copies
is restored to its pre-issue value) and leaves the member without a record
for that item. -/
theorem C4_issue_return_roundtrip (lib lib' : Library) (tid : Nat) (sel : String) (item : LiItem)
    (hwf : lib.WF)
    (hb : item.avail_copies < 4294967296)
    (hi : mapGet tid lib.items = some item)
    (hok : lib.book_issue tid sel = some (lib', Except.ok ())) :
    (lib'.book_return tid (issueMemberId lib sel)).2 = Except.ok item ∧
    mapGet tid (lib'.book_return tid (issueMemberId lib sel)).1.items = some item ∧
    memberRecord (lib'.book_return tid (issueMemberId lib sel)).1
      (issueMemberId lib sel) tid = none := by
  cases hp : parseU32 sel with
  | some mid =>
    have hmid : issueMemberId lib sel = mid := by simp [issueMemberId, hp]
    rw [hmid]
    cases hm : mapGet mid lib.members with
    | none =>
      have he := (book_issue_numeric_nomember lib tid mid sel hp hm).symm.trans hok
      exact Except.noConfusion (congrArg Prod.snd (Option.some.inj he))
    | some m =>
      cases hA : item.avail_copies with
      | zero =>
        have he := (book_issue_numeric_nocopies lib tid mid sel m item hp hm hi hA).symm.trans hok
        exact Except.noConfusion (congrArg Prod.snd (Option.some.inj he))
      | succ n =>
        have he := (book_issue_numeric_ok lib tid mid sel m item n hp hm hi hA).symm.trans hok
        simp only [Option.some.injEq, Prod.mk.injEq] at he
        obtain ⟨he1, -⟩ := he
        subst he1
        refine return_restores _ tid mid item { item with avail_copies := n }
          { m with items := mapInsert tid (mkInst item) m.items } ?_ ?_ ?_ ?_ ?_ rfl
        · exact mapGet_insert_self mid _ lib.members
        · exact mapGet_insert_self tid _ m.items
        · exact mapGet_insert_self tid _ lib.items
        · exact keysNodup_insert tid _ m.items
            (hwf.2.2 (mid, m) (mapGet_mem mid m lib.members hm))
        · show (n + 1) % 4294967296 = item.avail_copies
          rw [hA]
          exact Nat.mod_eq_of_lt (hA ▸ hb)
  | none =>
    have hmid : issueMemberId lib sel = (lib.members.length % 4294967296 + 1) % 4294967296 := by
      simp [issueMemberId, hp]
    rw [hmid]
    cases hA : item.avail_copies with
    | zero =>
      have he := (book_issue_fresh_nocopies lib tid sel item hp hi hA).symm.trans hok
      exact Except.noConfusion (congrArg Prod.snd (Option.some.inj he))
    | succ n =>
      have he := (book_issue_fresh_ok lib tid sel item n hp hi hA).symm.trans hok
      simp only [Option.some.injEq, Prod.mk.injEq] at he
      obtain ⟨he1, -⟩ := he
      subst he1
      refine return_restores _ tid ((lib.members.length % 4294967296 + 1) % 4294967296) item
        { item with avail_copies := n }
        { id := (lib.members.length % 4294967296 + 1) % 4294967296,
          items := mapInsert tid (mkInst item) [] } ?_ ?_ ?_ ?_ ?_ rfl
      · exact mapGet_insert_self _ _ lib.members
      · exact mapGet_insert_self tid _ []
      · exact mapGet_insert_self tid _ lib.items
      · exact keysNodup_insert tid _ [] (by simp [keysNodup, mapKeys])
      · show (n + 1) % 4294967296 = item.avail_copies
        rw [hA]
        exact Nat.mod_eq_of_lt (hA ▸ hb)

/-- Witness for C4: issue item 7 to member 1 of witLib, then return it. -/
theorem C4_witness :
    (witIssued.book_return 7 (issueMemberId witLib "1")).2 = Except.ok witBook ∧
    mapGet 7 (witIssued.book_return 7 (issueMemberId witLib "1")).1.items = some witBook ∧
    memberRecord (witIssued.book_return 7 (issueMemberId witLib "1")).1
      (issueMemberId witLib "1") 7 = none :=
  C4_issue_return_roundtrip witLib witIssued 7 "1" witBook (by decide) (by decide) rfl rfl

/-- C6: a second successful Issue of the same item to the same member
overwrites the earlier checkout record (the member's checkout map stays keyed
by item id, holding one record for the item, exactly as if only the second
issuance had inserted) while decrementing available_copies a second time, so
the decrement of the first issuance is never restored. -/
theorem C6_reissue_leaks_decrement (lib : Library) (tid mid : Nat) (sel : String)
    (item : LiItem) (m : Member)
    (hsel : parseU32 sel = some mid)
    (hm : mapGet mid lib.members = some m)
    (hi : mapGet tid lib.items = some item)
    (h2 : 2 ≤ item.avail_copies) :
    ∃ lib1 lib2 : Library,
      lib.book_issue tid sel = some (lib1, Except.ok ()) ∧
      lib1.book_issue tid sel = some (lib2, Except.ok ()) ∧
      (mapGet tid lib2.items).map LiItem.avail_copies = some (item.avail_copies - 2) ∧
      (mapGet mid lib2.members).map Member.items =
        some (mapInsert tid (mkInst item) m.items) := by
  obtain ⟨n, hA⟩ : ∃ n, item.avail_copies = n + 1 + 1 := ⟨item.avail_copies - 2, by omega⟩
  have h1 := book_issue_numeric_ok lib tid mid sel m item (n + 1) hsel hm hi hA
  refine ⟨{ items := mapInsert tid { item with avail_copies := n + 1 } lib.items,
            members := mapInsert mid
              { m with items := mapInsert tid (mkInst item) m.items } lib.members },
          { items := mapInsert tid { item with avail_copies := n }
              (mapInsert tid { item with avail_copies := n + 1 } lib.items),
            members := mapInsert mid
              { m with items := mapInsert tid (mkInst item) (mapInsert tid (mkInst item) m.items) }
              (mapInsert mid { m with items := mapInsert tid (mkInst item) m.items }
                lib.members) },
          h1, ?_, ?_, ?_⟩
  · exact book_issue_numeric_ok _ tid mid sel
      { m with items := mapInsert tid (mkInst item) m.items }
      { item with avail_copies := n + 1 } n hsel
      (mapGet_insert_self mid _ lib.members)
      (mapGet_insert_self tid _ lib.items)
      rfl
  · rw [mapGet_insert_self]
    show some n = some (item.avail_copies - 2)
    congr 1
    omega
  · rw [mapInsert_insert_self, mapGet_insert_self]
    show some (mapInsert tid (mkInst item) (mapInsert tid (mkInst item) m.items)) =
      some (mapInsert tid (mkInst item) m.items)
    rw [mapInsert_insert_self]

/-- Witness for C6: issue item 7 to member 1 of witLib twice. -/
theorem C6_witness :
    ∃ lib1 lib2 : Library,
      witLib.book_issue 7 "1" = some (lib1, Except.ok ()) ∧
      lib1.book_issue 7 "1" = some (lib2, Except.ok ()) ∧
      (mapGet 7 lib2.items).map LiItem.avail_copies = some (witBook.avail_copies - 2) ∧
      (mapGet 1 lib2.members).map Member.items =
        some (mapInsert 7 (mkInst witBook) witMember.items) :=
  C6_reissue_leaks_decrement witLib 7 1 "1" witBook witMember rfl rfl rfl (by decide)

/-- Modelled from the spec: the repository's src has no catalog-edit entry
point (its operations are load, issue and return only), while section 3 and
section 9 of the spec speak of catalog edits after checkout, e.g. of the
title. This models such an edit of a catalog item's title by id. -/
def Library.setItemTitle (lib : Library) (tid : Nat) (t : String) : Library :=
  match mapGet tid lib.items with
  | some item => { lib with items := mapInsert tid { item with title := t } lib.items }
  | none => lib

/-- C8: a checkout record is an independent copy of the catalog item taken at
issuance: editing the catalog item's title after a successful issuance leaves
the outstanding record's stored title at its issuance-time value while the
catalog carries the new title. -/
theorem C8_record_is_snapshot (lib lib' : Library) (tid : Nat) (sel : String)
    (item : LiItem) (t' : String)
    (hi : mapGet tid lib.items = some item)
    (hok : lib.book_issue tid sel = some (lib', Except.ok ())) :
    (memberRecord (lib'.setItemTitle tid t') (issueMemberId lib sel) tid).map
      LiItemInstance.title = some item.title ∧
    (mapGet tid (lib'.setItemTitle tid t').items).map LiItem.title = some t' := by
  cases hp : parseU32 sel with
  | some mid =>
    have hmid : issueMemberId lib sel = mid := by simp [issueMemberId, hp]
    rw [hmid]
    cases hm : mapGet mid lib.members with
    | none =>
      have he := (book_issue_numeric_nomember lib tid mid sel hp hm).symm.trans hok
      exact Except.noConfusion (congrArg Prod.snd (Option.some.inj he))
    | some m =>
      cases hA : item.avail_copies with
      | zero =>
        have he := (book_issue_numeric_nocopies lib tid mid sel m item hp hm hi hA).symm.trans hok
        exact Except.noConfusion (congrArg Prod.snd (Option.some.inj he))
      | succ n =>
        have he := (book_issue_numeric_ok lib tid mid sel m item n hp hm hi hA).symm.trans hok
        simp only [Option.some.injEq, Prod.mk.injEq] at he
        obtain ⟨he1, -⟩ := he
        subst he1
        constructor
        · simp only [Library.setItemTitle, memberRecord, mapGet_insert_self]
          rfl
        · simp only [Library.setItemTitle, mapGet_insert_self]
          rfl
  | none =>
    have hmid : issueMemberId lib sel = (lib.members.length % 4294967296 + 1) % 4294967296 := by
      simp [issueMemberId, hp]
    rw [hmid]
    cases hA : item.avail_copies with
    | zero =>
      have he := (book_issue_fresh_nocopies lib tid sel item hp hi hA).symm.trans hok
      exact Except.noConfusion (congrArg Prod.snd (Option.some.inj he))
    | succ n =>
      have he := (book_issue_fresh_ok lib tid sel item n hp hi hA).symm.trans hok
      simp only [Option.some.injEq, Prod.mk.injEq] at he
      obtain ⟨he1, -⟩ := he
      subst he1
      constructor
      · simp only [Library.setItemTitle, memberRecord, mapGet_insert_self]
        rfl
      · simp only [Library.setItemTitle, mapGet_insert_self]
        rfl

/-- Witness for C8: edit the title of item 7 after issuing it to member 1. -/
theorem C8_witness :
    (memberRecord (witIssued.setItemTitle 7 "Changed") (issueMemberId witLib "1") 7).map
      LiItemInstance.title = some witBook.title ∧
    (mapGet 7 (witIssued.setItemTitle 7 "Changed").items).map LiItem.title = some "Changed" :=
  C8_record_is_snapshot witLib witIssued 7 "1" witBook "Changed" rfl rfl

/-- Fixture: a single-copy item with id 7 used to drive long sessions. -/
def bigItem : LiItem :=
  { title := "Loop", author := none, year := 0, edition := "", desc := "",
    format := "book", id := 7, copies := 1, avail_copies := 1, ratings := 0 }

/-- Sessions of every member count up to 2^32 are reachable: reload the
single-copy item 7 and issue it to a non-numeric selector, auto-creating one
member per round. -/
theorem exists_reachable_card (n : Nat) :
    n ≤ 4294967296 → ∃ lib : Library, Reachable lib ∧ lib.members.length = n := by
  induction n with
  | zero => exact fun _ => ⟨Library.new, Reachable.init, rfl⟩
  | succ k ih =>
    intro hn
    obtain ⟨lib, hreach, hlen⟩ := ih (by omega)
    have hreach2 : Reachable (lib.init_lib [some bigItem]).1 :=
      Reachable.load lib [some bigItem] hreach
    have hlen2 : (lib.init_lib [some bigItem]).1.members.length = k := by
      rw [init_lib_members, hlen]
    have hitem : mapGet 7 (lib.init_lib [some bigItem]).1.items = some bigItem := by
      rw [init_lib_items]
      show mapGet 7 (mapInsert bigItem.id bigItem lib.items) = some bigItem
      exact mapGet_insert_self bigItem.id bigItem lib.items
    have hs := reachable_seqIds (lib.init_lib [some bigItem]).1 hreach2
    have hk : membersKeys (lib.init_lib [some bigItem]).1 =
        List.range' 1 (lib.init_lib [some bigItem]).1.members.length := by
      rcases hs with ⟨-, h2⟩ | ⟨h1, -⟩
      · exact h2
      · omega
    have hnot : (((lib.init_lib [some bigItem]).1.members.length % 4294967296 + 1) %
        4294967296) ∉ membersKeys (lib.init_lib [some bigItem]).1 := by
      rw [hk]
      intro hmem
      have h3 := List.mem_range'_1.1 hmem
      omega
    have hg := (mapGet_eq_none_iff _ _).2 hnot
    have hok := book_issue_fresh_ok (lib.init_lib [some bigItem]).1 7 "x" bigItem 0 rfl hitem rfl
    refine ⟨_, Reachable.issue _ _ 7 "x" (Except.ok ()) hreach2 hok, ?_⟩
    change (mapInsert (((lib.init_lib [some bigItem]).1.members.length % 4294967296 + 1) %
        4294967296)
      { id := ((lib.init_lib [some bigItem]).1.members.length % 4294967296 + 1) % 4294967296,
        items := mapInsert 7 (mkInst bigItem) [] }
      (lib.init_lib [some bigItem]).1.members).length = k + 1
    rw [mapInsert_of_get_none _ _ _ hg, List.length_append]
    show (lib.init_lib [some bigItem]).1.members.length + 1 = k + 1
    omega

/-- C7 counterexample: a reachable session holding 2^32 members (the id wrap
already assigned id 0 at count 2^32 - 1) in which a further auto-creating
Issue succeeds and assigns id 1 - an id already present, not the member count
plus one, and smaller than previously assigned ids - overwriting the existing
member 1, so the member count does not even grow. -/
theorem C7_counterexample :
    ∃ (lib lib' : Library) (sel : String),
      Reachable lib ∧ parseU32 sel = none ∧
      1 ∈ membersKeys lib ∧
      lib.book_issue 7 sel = some (lib', Except.ok ()) ∧
      (mapGet 1 lib'.members).map Member.id = some 1 ∧
      1 ≠ lib.members.length + 1 ∧
      lib'.members.length = lib.members.length := by
  obtain ⟨lib0, hreach0, hlen0⟩ := exists_reachable_card 4294967296 (le_refl _)
  have hreach : Reachable (lib0.init_lib [some bigItem]).1 :=
    Reachable.load lib0 [some bigItem] hreach0
  have hlen : (lib0.init_lib [some bigItem]).1.members.length = 4294967296 := by
    rw [init_lib_members, hlen0]
  have hitem : mapGet 7 (lib0.init_lib [some bigItem]).1.items = some bigItem := by
    rw [init_lib_items]
    show mapGet 7 (mapInsert bigItem.id bigItem lib0.items) = some bigItem
    exact mapGet_insert_self bigItem.id bigItem lib0.items
  have hs := reachable_seqIds (lib0.init_lib [some bigItem]).1 hreach
  have hkeys : membersKeys (lib0.init_lib [some bigItem]).1 =
      List.range' 1 4294967295 ++ [0] := by
    rcases hs with ⟨h1, -⟩ | ⟨-, h2⟩
    · omega
    · exact h2
  have h1mem : 1 ∈ membersKeys (lib0.init_lib [some bigItem]).1 := by
    rw [hkeys]
    refine List.mem_append.2 (Or.inl (List.mem_range'_1.2 ?_))
    omega
  have hok := book_issue_fresh_ok (lib0.init_lib [some bigItem]).1 7 "x" bigItem 0 rfl hitem rfl
  have hid : (((lib0.init_lib [some bigItem]).1.members.length % 4294967296 + 1) %
      4294967296) = 1 := by
    omega
  rw [hid] at hok
  obtain ⟨m0, hg⟩ := mapGet_eq_some_of_mem 1 (lib0.init_lib [some bigItem]).1.members h1mem
  refine ⟨(lib0.init_lib [some bigItem]).1, _, "x", hreach, rfl, h1mem, hok, ?_, ?_, ?_⟩
  · change (mapGet 1 (mapInsert 1
      { id := 1, items := mapInsert 7 (mkInst bigItem) [] }
      (lib0.init_lib [some bigItem]).1.members)).map Member.id = some 1
    rw [mapGet_insert_self]
    rfl
  · omega
  · change (mapInsert 1 { id := 1, items := mapInsert 7 (mkInst bigItem) [] }
      (lib0.init_lib [some bigItem]).1.members).length =
      (lib0.init_lib [some bigItem]).1.members.length
    exact length_insert_of_get_some 1 _ m0 _ hg

/-- C7 (amended): at every reachable session state whose member count plus
one is below 2^32, the id auto-creation would assign is the member count plus
one, which exceeds every member id present (so ids assigned by successive
auto-creations are strictly increasing) and collides with no existing id, and
a successful auto-creating Issue inserts a member carrying exactly that id
while growing the member count by one. Beyond that bound the usize-to-u32
cast in the source wraps the assigned id (to 0 at count 2^32 - 1, then to the
colliding id 1). -/
theorem C7_auto_ids (lib : Library) (h : Reachable lib)
    (hcap : lib.members.length + 1 < 4294967296) :
    (lib.members.length + 1) ∉ membersKeys lib ∧
    (∀ k ∈ membersKeys lib, k < lib.members.length + 1) ∧
    (∀ (tid : Nat) (sel : String) (lib' : Library),
      parseU32 sel = none → lib.book_issue tid sel = some (lib', Except.ok ()) →
      (mapGet (lib.members.length + 1) lib'.members).map Member.id =
        some (lib.members.length + 1) ∧
      lib'.members.length = lib.members.length + 1) := by
  have hs := reachable_seqIds lib h
  have hk : membersKeys lib = List.range' 1 lib.members.length := by
    rcases hs with ⟨-, h2⟩ | ⟨h1, -⟩
    · exact h2
    · omega
  have hnot : (lib.members.length + 1) ∉ membersKeys lib := by
    rw [hk]
    intro hmem
    have h3 := List.mem_range'_1.1 hmem
    omega
  refine ⟨hnot, ?_, ?_⟩
  · intro k hkm
    rw [hk] at hkm
    have h3 := List.mem_range'_1.1 hkm
    omega
  · intro tid sel lib' hp hok
    cases hi : mapGet tid lib.items with
    | none =>
      have he := (book_issue_fresh_noitem lib tid sel hp hi).symm.trans hok
      exact Except.noConfusion (congrArg Prod.snd (Option.some.inj he))
    | some item =>
      cases hA : item.avail_copies with
      | zero =>
        have he := (book_issue_fresh_nocopies lib tid sel item hp hi hA).symm.trans hok
        exact Except.noConfusion (congrArg Prod.snd (Option.some.inj he))
      | succ n =>
        have hid : (lib.members.length % 4294967296 + 1) % 4294967296 =
            lib.members.length + 1 := by omega
        have he := (book_issue_fresh_ok lib tid sel item n hp hi hA).symm.trans hok
        rw [hid] at he
        simp only [Option.some.injEq, Prod.mk.injEq] at he
        obtain ⟨he1, -⟩ := he
        subst he1
        have hg : mapGet (lib.members.length + 1) lib.members = none :=
          (mapGet_eq_none_iff _ _).2 hnot
        constructor
        · show (mapGet (lib.members.length + 1)
            (mapInsert (lib.members.length + 1)
              { id := lib.members.length + 1, items := mapInsert tid (mkInst item) [] }
              lib.members)).map Member.id = some (lib.members.length + 1)
          rw [mapGet_insert_self]
          rfl
        · show (mapInsert (lib.members.length + 1)
            { id := lib.members.length + 1, items := mapInsert tid (mkInst item) [] }
            lib.members).length = lib.members.length + 1
          rw [mapInsert_of_get_none _ _ _ hg, List.length_append]
          rfl

/-- Fixture: library after loading witBook only. -/
def witLoaded : Library := { items := [(7, witBook)], members := [] }

/-- Fixture: witLoaded after an auto-creating issue of item 7 to "Ada". -/
def witAuto : Library :=
  { items := [(7, { witBook with avail_copies := 1 })]
    members := [(1, { id := 1, items := [(7, mkInst witBook)] })] }

theorem witAuto_reachable : Reachable witAuto := by
  have h1 : Reachable (Library.new.init_lib [some witBook]).1 :=
    Reachable.load Library.new [some witBook] Reachable.init
  have he : (Library.new.init_lib [some witBook]).1 = witLoaded := rfl
  rw [he] at h1
  exact Reachable.issue witLoaded witAuto 7 "Ada" (Except.ok ()) h1 rfl

/-- Witness for the amended C7 at the reachable single-member state witAuto. -/
theorem C7_witness : (witAuto.members.length + 1) ∉ membersKeys witAuto :=
  (C7_auto_ids witAuto witAuto_reachable (by decide)).1

end RustLMS
